import Mathlib

/-!
Verification of the StarRocks lake primary-key recovery engine
(`be/src/storage/lake/lake_primary_key_recover.cpp`) and the keyed hash
set (`be/src/column/hash_set.h`), as a shallow embedding in Lean 4.

Rowset ids and error codes are modelled as `Nat`; statuses as an explicit
`Status` type; fallible collaborator calls as `Except`-valued parameters.
`std::sort` is modelled by `List.mergeSort` (a deterministic comparison
sort driven by the same comparator).
-/

namespace StarRocks

/-- `RowsetMetadataPB`: a rowset's id and, when the rowset was produced by
compaction, the id of its newest compaction input
(`max_compact_input_rowset_id`, an optional protobuf field). -/
structure RowsetMetadataPB where
  id : Nat
  max_compact_input_rowset_id : Option Nat
deriving DecidableEq, Repr

/-- A rowset, carrying its metadata. -/
structure Rowset where
  metadata : RowsetMetadataPB
deriving DecidableEq, Repr

/-- `Rowset::id()`. -/
def Rowset.id (r : Rowset) : Nat := r.metadata.id

/-- The comparison id computed inside the `sort_rowsets` comparator:
`has_max_compact_input_rowset_id() ? max_compact_input_rowset_id() : id()`. -/
def compareId (m : RowsetMetadataPB) : Nat :=
  match m.max_compact_input_rowset_id with
  | some v => v
  | none => m.id

/-- The comparator of `LakePrimaryKeyRecover::sort_rowsets`, in the
non-strict form used by the model sort (`std::sort` receives the strict
form `compareId a < compareId b`; a comparison sort driven by it yields a
sequence that is `Pairwise` under this non-strict form). -/
def rowsetLe (a b : Rowset) : Bool := compareId a.metadata ≤ compareId b.metadata

/-- `LakePrimaryKeyRecover::sort_rowsets`: sort the rowset list by the
comparison id. -/
def sort_rowsets (rowsets : List Rowset) : List Rowset :=
  rowsets.mergeSort rowsetLe

/-- Rowset R3 of the spec's E2E Scenario C: own id 7, compacted, newest
compaction input id 10. -/
def rowsetR3 : Rowset := ⟨⟨7, some 10⟩⟩

/-- Rowset R4 of the spec's E2E Scenario C: own id 9, no compaction
lineage. -/
def rowsetR4 : Rowset := ⟨⟨9, none⟩⟩

/-- A rowset with own id 1 and no compaction lineage: comparison id 1. -/
def rowsetTieA : Rowset := ⟨⟨1, none⟩⟩

/-- A rowset with own id 2, compacted, newest compaction input id 1:
comparison id 1, tying with `rowsetTieA`. -/
def rowsetTieB : Rowset := ⟨⟨2, some 1⟩⟩

/-- `starrocks::Status`: OK, or an error carrying an opaque error code. -/
inductive Status where
  | ok
  | err (e : Nat)
deriving DecidableEq, Repr

/-- Observable outcome of one `rowset_iterator` run: the rowsets on which
`get_each_segment_iterator` was called, the rowsets passed to the
handler, and the returned status. -/
structure IterResult where
  opened : List Rowset
  handled : List Rowset
  status : Status
deriving DecidableEq, Repr

/-- The loop of `LakePrimaryKeyRecover::rowset_iterator`, over an
already-sorted rowset list: open each rowset's segment iterators
(`get_each_segment_iterator`, modelled by the fallible `getItrs`),
returning the error status on failure; otherwise call the handler with
the iterators, two empty vectors and the rowset's id, returning the
handler's error on failure. -/
def rowsetIterLoop {I : Type} (getItrs : Rowset → Except Nat I)
    (handler : I → List Unit → List Nat → Nat → Except Nat Unit) :
    List Rowset → IterResult
  | [] => ⟨[], [], .ok⟩
  | r :: rest =>
    match getItrs r with
    | .error e => ⟨[r], [], .err e⟩
    | .ok itrs =>
      match handler itrs [] [] r.id with
      | .error e => ⟨[r], [r], .err e⟩
      | .ok _ =>
        let res := rowsetIterLoop getItrs handler rest
        ⟨r :: res.opened, r :: res.handled, res.status⟩

/-- `LakePrimaryKeyRecover::rowset_iterator`: fetch the metadata's
rowsets, sort them with `sort_rowsets`, and run the loop. -/
def rowset_iterator {I : Type} (getItrs : Rowset → Except Nat I)
    (handler : I → List Unit → List Nat → Nat → Except Nat Unit)
    (md_rowsets : List Rowset) : IterResult :=
  rowsetIterLoop getItrs handler (sort_rowsets md_rowsets)

/-- `TabletSchemaPB` slice used here: opaque column descriptors and the
number of key columns. -/
structure TabletSchemaPB where
  columns : List Nat
  num_key_columns : Nat
deriving DecidableEq, Repr

/-- `TabletMetadata` slice used by the recovery engine: the target
version, the schema, the live rowsets, and the delete-vector metadata
(opaque entries). -/
structure TabletMetadata where
  version : Nat
  schema : TabletSchemaPB
  rowsets : List Rowset
  delvec_meta : List (Nat × Nat)
deriving DecidableEq, Repr

/-- Outcome of `UpdateManager::try_remove_primary_index_cache`: the cache
entry was evicted, was absent, or the eviction attempt failed. -/
inductive CacheEvictOutcome where
  | evicted
  | absent
  | failed
deriving DecidableEq, Repr

/-- Events observable during `pre_cleanup`, listed in execution order. -/
inductive CleanupEvent where
  | clearDelvecMeta
  | cacheEvict (outcome : CacheEvictOutcome)
  | removeIndexMeta
  | removeAllFiles
deriving DecidableEq, Repr

/-- Collaborator behaviour consumed by `pre_cleanup`: the cache-eviction
outcome, the result of `get_persistent_index_store` (`none` models a null
`DataDir*`), and the results of
`TabletMetaManager::remove_tablet_persistent_index_meta` and
`fs::remove_all`. -/
structure PreCleanupEnv where
  cache_evict_outcome : CacheEvictOutcome
  persistent_index_store : Option Nat
  remove_index_meta_result : Except Nat Unit
  remove_all_result : Except Nat Unit
deriving Repr

/-- `LakePrimaryKeyRecover::pre_cleanup`: clear the metadata's delvec
meta, do the best-effort primary-index cache eviction (its outcome is
discarded), then, when a persistent index store is configured, remove the
tablet's persistent-index meta and delete its index files, propagating
the first error (`RETURN_IF_ERROR`); a null store skips both removals and
returns OK. Returns the mutated metadata, the event trace, and the
status. -/
def pre_cleanup (env : PreCleanupEnv) (md : TabletMetadata) :
    TabletMetadata × List CleanupEvent × Status :=
  let md1 := { md with delvec_meta := [] }
  let pre : List CleanupEvent := [.clearDelvecMeta, .cacheEvict env.cache_evict_outcome]
  match env.persistent_index_store with
  | none => (md1, pre, .ok)
  | some _ =>
    match env.remove_index_meta_result with
    | .error e => (md1, pre ++ [.removeIndexMeta], .err e)
    | .ok _ =>
      match env.remove_all_result with
      | .error e => (md1, pre ++ [.removeIndexMeta, .removeAllFiles], .err e)
      | .ok _ => (md1, pre ++ [.removeIndexMeta, .removeAllFiles], .ok)

/-- A concrete tablet metadata snapshot used by witnesses. -/
def mdExample : TabletMetadata :=
  ⟨5, ⟨[10, 20, 30], 2⟩, [rowsetR3, rowsetR4], [(1, 1)]⟩

/-- Modelled from the spec: `ChunkHelper::convert_schema` (implementation
not in this slice of the repository) projects the tablet schema onto the
given column ids. -/
def convert_schema (ts : TabletSchemaPB) (cids : List Nat) : List Nat :=
  cids.map (fun i => ts.columns.getD i 0)

/-- `LakePrimaryKeyRecover::generate_pkey_schema`: build the tablet
schema from the metadata's schema, fill `pk_columns` with the column ids
`0, 1, ..., num_key_columns - 1` (the loop `pk_columns[i] = i`), and
convert. -/
def generate_pkey_schema (md : TabletMetadata) : List Nat :=
  let tablet_schema := md.schema
  let pk_columns := List.range tablet_schema.num_key_columns
  convert_schema tablet_schema pk_columns

/-- A delete vector: the version it was initialized with and its row-id
list. -/
structure DelVector where
  version : Nat
  rows : List Nat
deriving DecidableEq, Repr

/-- Modelled from the spec: `DelVector::init` (implementation not in this
slice of the repository) initializes a delete vector with the target
recovery version and the given row ids, stored sorted ascending. -/
def DelVector.init (version : Nat) (del_ids : List Nat) : DelVector :=
  ⟨version, del_ids.mergeSort (fun a b => a ≤ b)⟩

/-- `LakePrimaryKeyRecover::finalize_delvec`: for each entry
`(rowset id, row ids)` of the deletes map (`PrimaryIndex::DeletesMap`,
modelled as an association list), build a `DelVector` from the metadata's
version and the entry's row ids and append it to the builder together
with the rowset id. -/
def finalize_delvec (md_version : Nat) (new_deletes : List (Nat × List Nat)) :
    List (DelVector × Nat) :=
  new_deletes.map (fun nd => (DelVector.init md_version nd.2, nd.1))

/-- `starrocks::Slice`: a byte string (bytes modelled as naturals). -/
structure Slice where
  data : List Nat
deriving DecidableEq, Repr

/-- `Slice::size`: the byte length. -/
def Slice.size (s : Slice) : Nat := s.data.length

/-- `memequal(p1, size1, p2, size2)`: equal lengths and equal byte
contents. -/
def memequal (d1 : List Nat) (s1 : Nat) (d2 : List Nat) (s2 : Nat) : Bool :=
  s1 == s2 && d1 == d2

/-- `SliceWithHash` / `TSliceWithHash<seed>`: a slice extended with its
cached hash value. -/
structure SliceWithHash extends Slice where
  hash : Nat
deriving DecidableEq, Repr

/-- The hash-computing constructor `SliceWithHash(const Slice& src)`:
copy the bytes and cache `SliceHash()(src)`. The hash function
`SliceHash` lives in `column_hash.h` (outside this slice) and is modelled
as a parameter. -/
def SliceWithHash.ofSlice (sliceHash : List Nat → Nat) (src : Slice) : SliceWithHash :=
  ⟨⟨src.data⟩, sliceHash src.data⟩

/-- The hash-computing constructor `TSliceWithHash<seed>(const Slice&)`:
copy the bytes and cache `SliceHashWithSeed<seed>()(src)`, the seeded
hash modelled as a function of the seed. -/
def TSliceWithHash.ofSlice (sliceHashWithSeed : Nat → List Nat → Nat) (seed : Nat)
    (src : Slice) : SliceWithHash :=
  ⟨⟨src.data⟩, sliceHashWithSeed seed src.data⟩

/-- `EqualOnSliceWithHash::operator()`: compare the cached hashes first,
then the byte contents with `memequal`. -/
def EqualOnSliceWithHash (x y : SliceWithHash) : Bool :=
  x.hash == y.hash && memequal x.data x.toSlice.size y.data y.toSlice.size

/-- `TEqualOnSliceWithHash<seed>::operator()`: same comparison as
`EqualOnSliceWithHash`, over the seeded slices. -/
def TEqualOnSliceWithHash (x y : SliceWithHash) : Bool :=
  x.hash == y.hash && memequal x.data x.toSlice.size y.data y.toSlice.size

/-! ## Theorems -/

theorem rowsetLe_trans (a b c : Rowset) :
    rowsetLe a b → rowsetLe b c → rowsetLe a c := by
  simp only [rowsetLe, decide_eq_true_eq]
  exact Nat.le_trans

theorem rowsetLe_total (a b : Rowset) : rowsetLe a b || rowsetLe b a := by
  simp only [rowsetLe, Bool.or_eq_true, decide_eq_true_eq]
  exact Nat.le_total _ _

theorem sort_rowsets_perm (rowsets : List Rowset) :
    (sort_rowsets rowsets).Perm rowsets :=
  List.mergeSort_perm rowsets rowsetLe

theorem sort_rowsets_sorted (rowsets : List Rowset) :
    (sort_rowsets rowsets).Pairwise
      (fun a b => compareId a.metadata ≤ compareId b.metadata) := by
  have h := List.sorted_mergeSort rowsetLe_trans rowsetLe_total rowsets
  refine h.imp ?_
  intro a b hab
  simpa [rowsetLe] using hab

/-- C1: `sort_rowsets` orders every rowset list by ascending comparison id
(comparison id = `max_compact_input_rowset_id` when present, else the
rowset's own id): the output is a permutation of the input that is
pairwise non-decreasing in comparison id; in particular rowset R3
(own id 7, max compact input id 10) is placed after rowset R4 (own id 9,
no lineage), whichever order they arrive in. -/
theorem sort_rowsets_ascending_compare_id :
    (∀ rowsets : List Rowset,
        (sort_rowsets rowsets).Perm rowsets ∧
        (sort_rowsets rowsets).Pairwise
          (fun a b => compareId a.metadata ≤ compareId b.metadata)) ∧
    sort_rowsets [rowsetR3, rowsetR4] = [rowsetR4, rowsetR3] ∧
    sort_rowsets [rowsetR4, rowsetR3] = [rowsetR4, rowsetR3] := by
  refine ⟨fun rowsets => ⟨sort_rowsets_perm rowsets, sort_rowsets_sorted rowsets⟩, ?_, ?_⟩ <;>
    simp [sort_rowsets, List.mergeSort, List.splitInTwo, List.merge, rowsetLe, compareId,
      rowsetR3, rowsetR4]

/-- C3 counterexample: `sort_rowsets` is NOT permutation-invariant when
two rowsets tie on comparison id. `rowsetTieA` (id 1) and `rowsetTieB`
(id 2, max compact input id 1) both have comparison id 1; the comparator
compares comparison ids only, so no raw-id tie-break happens and the two
input orders of the same rowset pair sort to different sequences. -/
theorem sort_rowsets_tie_counterexample :
    compareId rowsetTieA.metadata = compareId rowsetTieB.metadata ∧
    ([rowsetTieA, rowsetTieB]).Perm [rowsetTieB, rowsetTieA] ∧
    sort_rowsets [rowsetTieA, rowsetTieB] = [rowsetTieA, rowsetTieB] ∧
    sort_rowsets [rowsetTieB, rowsetTieA] = [rowsetTieB, rowsetTieA] ∧
    sort_rowsets [rowsetTieA, rowsetTieB] ≠ sort_rowsets [rowsetTieB, rowsetTieA] := by
  refine ⟨rfl, ?_, ?_, ?_, ?_⟩
  · decide
  · simp [sort_rowsets, List.mergeSort, List.splitInTwo, List.merge, rowsetLe, compareId,
      rowsetTieA, rowsetTieB]
  · simp [sort_rowsets, List.mergeSort, List.splitInTwo, List.merge, rowsetLe, compareId,
      rowsetTieA, rowsetTieB]
  · intro h
    have h1 : sort_rowsets [rowsetTieA, rowsetTieB] = [rowsetTieA, rowsetTieB] := by
      simp [sort_rowsets, List.mergeSort, List.splitInTwo, List.merge, rowsetLe, compareId,
        rowsetTieA, rowsetTieB]
    have h2 : sort_rowsets [rowsetTieB, rowsetTieA] = [rowsetTieB, rowsetTieA] := by
      simp [sort_rowsets, List.mergeSort, List.splitInTwo, List.merge, rowsetLe, compareId,
        rowsetTieA, rowsetTieB]
    rw [h1, h2] at h
    exact absurd h (by decide)

/-- C3 amended: `sort_rowsets` is deterministic for a given input list,
and is permutation-invariant when all comparison ids in the list are
distinct: any two permutations of such a rowset list sort to the same
sequence. (When two rowsets tie on comparison id the comparator ignores
their raw ids, tied rowsets keep their relative input order, and
permutation-invariance fails, as the counterexample shows.) -/
theorem sort_rowsets_perm_invariant_of_nodup_compare_ids
    (l₁ l₂ : List Rowset) (hperm : l₁.Perm l₂)
    (hnd : (l₁.map (fun r => compareId r.metadata)).Nodup) :
    sort_rowsets l₁ = sort_rowsets l₂ := by
  haveI : IsAntisymm Rowset (fun a b => compareId a.metadata < compareId b.metadata) :=
    ⟨fun a b h1 h2 => absurd h2 (Nat.lt_asymm h1)⟩
  have key : ∀ l : List Rowset, (l.map (fun r => compareId r.metadata)).Nodup →
      (sort_rowsets l).Pairwise (fun a b => compareId a.metadata < compareId b.metadata) := by
    intro l hl
    have hle := sort_rowsets_sorted l
    have hnds : ((sort_rowsets l).map (fun r => compareId r.metadata)).Nodup :=
      (((sort_rowsets_perm l).map _).nodup_iff).mpr hl
    have hne : (sort_rowsets l).Pairwise (fun a b => compareId a.metadata ≠ compareId b.metadata) :=
      List.pairwise_map.mp hnds
    exact (hle.and hne).imp (fun hab => lt_of_le_of_ne hab.1 hab.2)
  have hnd₂ : (l₂.map (fun r => compareId r.metadata)).Nodup :=
    ((hperm.map _).nodup_iff).mp hnd
  exact List.eq_of_perm_of_sorted
    ((sort_rowsets_perm l₁).trans (hperm.trans (sort_rowsets_perm l₂).symm))
    (key l₁ hnd) (key l₂ hnd₂)

/-- Witness for the amended C3 theorem at the concrete rowsets R3 and R4,
whose comparison ids 10 and 9 are distinct. -/
theorem sort_rowsets_perm_invariant_witness :
    sort_rowsets [rowsetR3, rowsetR4] = sort_rowsets [rowsetR4, rowsetR3] :=
  sort_rowsets_perm_invariant_of_nodup_compare_ids [rowsetR3, rowsetR4] [rowsetR4, rowsetR3]
    (by decide) (by decide)

theorem rowsetIterLoop_all_ok {I : Type} (getItrs : Rowset → Except Nat I)
    (handler : I → List Unit → List Nat → Nat → Except Nat Unit)
    (l : List Rowset) (hopen : ∀ r, ∃ i, getItrs r = .ok i)
    (hhandle : ∀ i a b n, handler i a b n = .ok ()) :
    rowsetIterLoop getItrs handler l = ⟨l, l, .ok⟩ := by
  induction l with
  | nil => rfl
  | cons r rest ih =>
    obtain ⟨i, hi⟩ := hopen r
    simp [rowsetIterLoop, hi, hhandle, ih]

/-- C2 (amended): whenever every rowset's segment iterators open
successfully AND the handler succeeds on every invocation,
`rowset_iterator` invokes the handler exactly once per rowset of the
snapshot (the handled sequence is a permutation of the snapshot's
rowsets) and in non-decreasing comparison-id order, namely the order
produced by `sort_rowsets`. -/
theorem rowset_iterator_all_success_handles_each_once {I : Type}
    (getItrs : Rowset → Except Nat I)
    (handler : I → List Unit → List Nat → Nat → Except Nat Unit)
    (md_rowsets : List Rowset)
    (hopen : ∀ r, ∃ i, getItrs r = .ok i)
    (hhandle : ∀ i a b n, handler i a b n = .ok ()) :
    (rowset_iterator getItrs handler md_rowsets).handled = sort_rowsets md_rowsets ∧
    (rowset_iterator getItrs handler md_rowsets).handled.Perm md_rowsets ∧
    (rowset_iterator getItrs handler md_rowsets).handled.Pairwise
      (fun a b => compareId a.metadata ≤ compareId b.metadata) ∧
    (rowset_iterator getItrs handler md_rowsets).status = .ok := by
  have h : rowset_iterator getItrs handler md_rowsets =
      ⟨sort_rowsets md_rowsets, sort_rowsets md_rowsets, .ok⟩ :=
    rowsetIterLoop_all_ok getItrs handler (sort_rowsets md_rowsets) hopen hhandle
  rw [h]
  exact ⟨rfl, sort_rowsets_perm md_rowsets, sort_rowsets_sorted md_rowsets, rfl⟩

/-- Witness for the amended C2 theorem: a concrete always-succeeding
iterator opener and handler over the two-rowset snapshot [R3, R4]. -/
theorem rowset_iterator_all_success_witness :
    (rowset_iterator (fun _ => Except.ok 0) (fun _ _ _ _ => Except.ok ())
        [rowsetR3, rowsetR4]).handled = sort_rowsets [rowsetR3, rowsetR4] ∧
    (rowset_iterator (fun _ => Except.ok 0) (fun _ _ _ _ => Except.ok ())
        [rowsetR3, rowsetR4]).handled.Perm [rowsetR3, rowsetR4] ∧
    (rowset_iterator (fun _ => Except.ok 0) (fun _ _ _ _ => Except.ok ())
        [rowsetR3, rowsetR4]).handled.Pairwise
      (fun a b => compareId a.metadata ≤ compareId b.metadata) ∧
    (rowset_iterator (fun _ => Except.ok 0) (fun _ _ _ _ => Except.ok ())
        [rowsetR3, rowsetR4]).status = .ok :=
  rowset_iterator_all_success_handles_each_once (I := Nat) (fun _ => Except.ok 0)
    (fun _ _ _ _ => Except.ok ()) [rowsetR3, rowsetR4]
    (fun _ => ⟨0, rfl⟩) (fun _ _ _ _ => rfl)

/-- C2 counterexample: the claim as stated is false, because the handler
itself may fail and cut the loop short. With the snapshot [R3, R4], an
opener that succeeds on every rowset, and a handler that always returns
an error, the handler is invoked on only one of the two rowsets, so the
handled sequence is not a permutation of the snapshot's rowsets. -/
theorem rowset_iterator_failing_handler_counterexample :
    (∀ r : Rowset, ∃ i : Nat, (fun _ : Rowset => (Except.ok 0 : Except Nat Nat)) r = .ok i) ∧
    (rowset_iterator (fun _ => Except.ok 0) (fun _ _ _ _ => Except.error 1)
        [rowsetR3, rowsetR4]).handled = [rowsetR4] ∧
    ¬ ((rowset_iterator (fun _ => Except.ok 0) (fun _ _ _ _ => Except.error 1)
        [rowsetR3, rowsetR4]).handled).Perm [rowsetR3, rowsetR4] := by
  have hsort : sort_rowsets [rowsetR3, rowsetR4] = [rowsetR4, rowsetR3] := by
    simp [sort_rowsets, List.mergeSort, List.splitInTwo, List.merge, rowsetLe, compareId,
      rowsetR3, rowsetR4]
  have hrun : (rowset_iterator (fun _ => Except.ok 0) (fun _ _ _ _ => Except.error 1)
      [rowsetR3, rowsetR4]).handled = [rowsetR4] := by
    rw [rowset_iterator, hsort]
    rfl
  refine ⟨fun _ => ⟨0, rfl⟩, hrun, ?_⟩
  rw [hrun]
  decide

theorem rowsetIterLoop_split {I : Type} (getItrs : Rowset → Except Nat I)
    (handler : I → List Unit → List Nat → Nat → Except Nat Unit) (e : Nat) :
    ∀ (before : List Rowset) (rk : Rowset) (after : List Rowset),
      (∀ r ∈ before, ∃ i, getItrs r = .ok i ∧ handler i [] [] r.id = .ok ()) →
      getItrs rk = .error e →
      rowsetIterLoop getItrs handler (before ++ rk :: after) =
        ⟨before ++ [rk], before, .err e⟩
  | [], rk, after, _, hfail => by
    simp [rowsetIterLoop, hfail]
  | r :: rest, rk, after, hok, hfail => by
    obtain ⟨i, hi, hh⟩ := hok r (List.mem_cons_self r rest)
    have ih := rowsetIterLoop_split getItrs handler e rest rk after
      (fun r' hr' => hok r' (List.mem_cons_of_mem r hr')) hfail
    simp [rowsetIterLoop, hi, hh, ih]

/-- C5: if, in the sorted rowset sequence, every rowset before `rk` opens
its segment iterators successfully and is handled successfully, and
`get_each_segment_iterator` fails with error `e` on `rk`, then
`rowset_iterator` returns that error, the handler is invoked exactly on
the rowsets strictly before `rk`, and no rowset after `rk` has its
segment iterators opened. -/
theorem rowset_iterator_open_failure_aborts {I : Type}
    (getItrs : Rowset → Except Nat I)
    (handler : I → List Unit → List Nat → Nat → Except Nat Unit)
    (md_rowsets before : List Rowset) (rk : Rowset) (after : List Rowset) (e : Nat)
    (hsplit : sort_rowsets md_rowsets = before ++ rk :: after)
    (hok : ∀ r ∈ before, ∃ i, getItrs r = .ok i ∧ handler i [] [] r.id = .ok ())
    (hfail : getItrs rk = .error e) :
    rowset_iterator getItrs handler md_rowsets = ⟨before ++ [rk], before, .err e⟩ := by
  rw [rowset_iterator, hsplit]
  exact rowsetIterLoop_split getItrs handler e before rk after hok hfail

/-- Witness for C5: the snapshot [R3, R4] sorts to [R4, R3]; the opener
succeeds on R4 (id 9) and fails with error 7 on R3, so the run opens
[R4, R3], handles only [R4], and returns error 7. -/
theorem rowset_iterator_open_failure_witness :
    rowset_iterator
        (fun r => if r.metadata.id = 9 then Except.ok 0 else Except.error 7)
        (fun _ _ _ _ => Except.ok ()) [rowsetR3, rowsetR4] =
      ⟨[rowsetR4, rowsetR3], [rowsetR4], .err 7⟩ :=
  rowset_iterator_open_failure_aborts (I := Nat)
    (fun r => if r.metadata.id = 9 then Except.ok 0 else Except.error 7)
    (fun _ _ _ _ => Except.ok ()) [rowsetR3, rowsetR4] [rowsetR4] rowsetR3 [] 7
    (by simp [sort_rowsets, List.mergeSort, List.splitInTwo, List.merge, rowsetLe, compareId,
      rowsetR3, rowsetR4])
    (by intro r hr
        simp only [List.mem_singleton] at hr
        subst hr
        exact ⟨0, rfl, rfl⟩)
    rfl

/-- C6: when no persistent-index store is configured for the tablet
(`get_persistent_index_store` returns null), `pre_cleanup` returns OK and
neither the index-meta removal nor the index-file deletion is attempted. -/
theorem pre_cleanup_no_store_is_ok (env : PreCleanupEnv) (md : TabletMetadata)
    (h : env.persistent_index_store = none) :
    (pre_cleanup env md).2.2 = .ok ∧
    CleanupEvent.removeIndexMeta ∉ (pre_cleanup env md).2.1 ∧
    CleanupEvent.removeAllFiles ∉ (pre_cleanup env md).2.1 := by
  simp [pre_cleanup, h]

/-- Witness for C6 at a concrete environment with a null store. -/
theorem pre_cleanup_no_store_witness :
    (pre_cleanup ⟨.failed, none, Except.ok (), Except.ok ()⟩ mdExample).2.2 = .ok ∧
    CleanupEvent.removeIndexMeta ∉
      (pre_cleanup ⟨.failed, none, Except.ok (), Except.ok ()⟩ mdExample).2.1 ∧
    CleanupEvent.removeAllFiles ∉
      (pre_cleanup ⟨.failed, none, Except.ok (), Except.ok ()⟩ mdExample).2.1 :=
  pre_cleanup_no_store_is_ok ⟨.failed, none, Except.ok (), Except.ok ()⟩ mdExample rfl

/-- C7: the outcome of the primary-index cache eviction never affects
`pre_cleanup`'s returned status or resulting metadata: the call's result
is discarded, so any two eviction outcomes (evicted, absent, failed)
yield the same status and metadata in every environment. -/
theorem pre_cleanup_cache_evict_irrelevant (env : PreCleanupEnv)
    (c₁ c₂ : CacheEvictOutcome) (md : TabletMetadata) :
    (pre_cleanup { env with cache_evict_outcome := c₁ } md).2.2 =
      (pre_cleanup { env with cache_evict_outcome := c₂ } md).2.2 ∧
    (pre_cleanup { env with cache_evict_outcome := c₁ } md).1 =
      (pre_cleanup { env with cache_evict_outcome := c₂ } md).1 := by
  obtain ⟨c, store, rim, ra⟩ := env
  cases store with
  | none => exact ⟨rfl, rfl⟩
  | some d =>
    cases rim with
    | error e => exact ⟨rfl, rfl⟩
    | ok u =>
      cases ra with
      | error e => exact ⟨rfl, rfl⟩
      | ok u => exact ⟨rfl, rfl⟩

/-- C9: `pre_cleanup` clears the delvec metadata and performs the cache
eviction before touching the persistent-index store (the first two trace
events are exactly those), and when the index-meta removal or the
index-file deletion fails with error `e`, it returns that error while the
resulting metadata's delvec meta is already cleared — `pre_cleanup` is
not atomic on error. -/
theorem pre_cleanup_error_after_delvec_cleared (env : PreCleanupEnv)
    (md : TabletMetadata) (d e : Nat)
    (hstore : env.persistent_index_store = some d)
    (hfail : env.remove_index_meta_result = .error e ∨
      (env.remove_index_meta_result = .ok () ∧ env.remove_all_result = .error e)) :
    (pre_cleanup env md).2.2 = .err e ∧
    ((pre_cleanup env md).1).delvec_meta = [] ∧
    (pre_cleanup env md).2.1.take 2 =
      [CleanupEvent.clearDelvecMeta, CleanupEvent.cacheEvict env.cache_evict_outcome] := by
  rcases hfail with h | ⟨h1, h2⟩
  · simp [pre_cleanup, hstore, h]
  · simp [pre_cleanup, hstore, h1, h2]

/-- Witness for C9: a concrete environment whose index-meta removal fails
with error 3; `pre_cleanup` returns error 3 with the delvec meta cleared. -/
theorem pre_cleanup_error_witness :
    (pre_cleanup ⟨.absent, some 0, Except.error 3, Except.ok ()⟩ mdExample).2.2 = .err 3 ∧
    ((pre_cleanup ⟨.absent, some 0, Except.error 3, Except.ok ()⟩ mdExample).1).delvec_meta = [] ∧
    (pre_cleanup ⟨.absent, some 0, Except.error 3, Except.ok ()⟩ mdExample).2.1.take 2 =
      [CleanupEvent.clearDelvecMeta, CleanupEvent.cacheEvict .absent] :=
  pre_cleanup_error_after_delvec_cleared ⟨.absent, some 0, Except.error 3, Except.ok ()⟩
    mdExample 0 3 rfl (Or.inl rfl)

/-- C10: `generate_pkey_schema` always builds the primary-key schema from
column ids `0 .. num_key_columns - 1` of the tablet schema, in strictly
ascending order (the key columns are assumed to be a prefix of the
schema's columns), and its output depends only on the metadata's schema:
two metadata snapshots with equal schemas yield equal outputs. -/
theorem generate_pkey_schema_from_schema_only :
    (∀ md : TabletMetadata,
        generate_pkey_schema md =
          convert_schema md.schema (List.range md.schema.num_key_columns)) ∧
    (∀ md : TabletMetadata,
        (List.range md.schema.num_key_columns).Pairwise (· < ·)) ∧
    (∀ md md' : TabletMetadata, md.schema = md'.schema →
        generate_pkey_schema md = generate_pkey_schema md') := by
  refine ⟨fun md => rfl, fun md => List.pairwise_lt_range _, fun md md' h => ?_⟩
  simp only [generate_pkey_schema]
  rw [h]

/-- Witness for C10: two concrete metadata snapshots that agree on the
schema but differ in version, rowsets and delvec meta produce the same
primary-key schema. -/
theorem generate_pkey_schema_witness :
    generate_pkey_schema mdExample =
      generate_pkey_schema ⟨99, ⟨[10, 20, 30], 2⟩, [], []⟩ :=
  generate_pkey_schema_from_schema_only.2.2 mdExample ⟨99, ⟨[10, 20, 30], 2⟩, [], []⟩ rfl

/-- C4 counterexample: the claim as stated is false for a deletes map
holding a rowset id with an EMPTY delete set: `finalize_delvec` appends a
(empty) `DelVector` for it, whereas the claim says only rowset ids with
non-empty delete sets receive one. -/
theorem finalize_delvec_empty_entry_counterexample :
    finalize_delvec 5 [(1, [])] = [(⟨5, []⟩, 1)] ∧
    finalize_delvec 5 [(1, [])] ≠ [] := by
  constructor <;> simp [finalize_delvec, DelVector.init]

theorem nat_le_trans_bool (a b c : Nat) :
    (fun a b : Nat => decide (a ≤ b)) a b →
    (fun a b : Nat => decide (a ≤ b)) b c →
    (fun a b : Nat => decide (a ≤ b)) a c := by
  simp only [decide_eq_true_eq]
  exact Nat.le_trans

theorem nat_le_total_bool (a b : Nat) :
    (fun a b : Nat => decide (a ≤ b)) a b || (fun a b : Nat => decide (a ≤ b)) b a := by
  simp only [Bool.or_eq_true, decide_eq_true_eq]
  exact Nat.le_total a b

/-- C4 (amended): `finalize_delvec` appends exactly one `DelVector` per
entry of the deletes map — whether that entry's delete set is empty or
not — pairing, in order, each entry's rowset id; each appended
`DelVector` carries the metadata's version and a row-id list sorted
ascending that is a permutation of the entry's row ids; a rowset id
absent from the deletes map receives no `DelVector`. -/
theorem finalize_delvec_one_per_entry (v : Nat) (m : List (Nat × List Nat)) :
    (finalize_delvec v m).map Prod.snd = m.map Prod.fst ∧
    (∀ p ∈ finalize_delvec v m, p.1.version = v ∧ p.1.rows.Pairwise (· ≤ ·)) ∧
    (∀ id dels, (id, dels) ∈ m →
        ∃ rows, ((⟨v, rows⟩ : DelVector), id) ∈ finalize_delvec v m ∧
          rows.Perm dels ∧ rows.Pairwise (· ≤ ·)) ∧
    (∀ id, id ∉ m.map Prod.fst → ∀ dv, (dv, id) ∉ finalize_delvec v m) := by
  have hsorted : ∀ dels : List Nat,
      (dels.mergeSort (fun a b => a ≤ b)).Pairwise (· ≤ ·) := by
    intro dels
    have h := List.sorted_mergeSort nat_le_trans_bool nat_le_total_bool dels
    exact h.imp (fun hab => by simpa using hab)
  refine ⟨?_, ?_, ?_, ?_⟩
  · simp [finalize_delvec]
  · intro p hp
    simp only [finalize_delvec, List.mem_map] at hp
    obtain ⟨nd, _, rfl⟩ := hp
    exact ⟨rfl, hsorted nd.2⟩
  · intro id dels hmem
    refine ⟨dels.mergeSort (fun a b => a ≤ b), ?_, List.mergeSort_perm dels _, hsorted dels⟩
    simp only [finalize_delvec, List.mem_map]
    exact ⟨(id, dels), hmem, rfl⟩
  · intro id hid dv hdv
    apply hid
    have : (dv, id).2 ∈ (finalize_delvec v m).map Prod.snd := List.mem_map_of_mem Prod.snd hdv
    simpa [finalize_delvec] using this

/-- Witness for the amended C4 theorem: a concrete deletes map with one
entry for rowset 1 holding row ids [3, 2]; the appended delete vector for
rowset 1 holds a sorted permutation of [3, 2]. -/
theorem finalize_delvec_one_per_entry_witness :
    ∃ rows, ((⟨5, rows⟩ : DelVector), 1) ∈ finalize_delvec 5 [(1, [3, 2])] ∧
      rows.Perm [3, 2] ∧ rows.Pairwise (· ≤ ·) :=
  (finalize_delvec_one_per_entry 5 [(1, [3, 2])]).2.2.1 1 [3, 2] (by simp)

/-- C8: for elements built by the hash-computing constructors (the same
hash function, respectively the same seed), the equality predicates
`EqualOnSliceWithHash` and `TEqualOnSliceWithHash` return true exactly
when the underlying byte contents are equal: the cached-hash comparison
is only an optimization and the byte-wise comparison is authoritative on
hash collision. -/
theorem slice_equality_iff_content (sliceHash : List Nat → Nat)
    (sliceHashWithSeed : Nat → List Nat → Nat) (seed : Nat) (a b : Slice) :
    (EqualOnSliceWithHash (SliceWithHash.ofSlice sliceHash a)
        (SliceWithHash.ofSlice sliceHash b) = true ↔ a = b) ∧
    (TEqualOnSliceWithHash (TSliceWithHash.ofSlice sliceHashWithSeed seed a)
        (TSliceWithHash.ofSlice sliceHashWithSeed seed b) = true ↔ a = b) := by
  obtain ⟨da⟩ := a
  obtain ⟨db⟩ := b
  constructor <;>
    · simp only [EqualOnSliceWithHash, TEqualOnSliceWithHash, SliceWithHash.ofSlice,
        TSliceWithHash.ofSlice, memequal, Slice.size, Bool.and_eq_true, beq_iff_eq,
        Slice.mk.injEq]
      constructor
      · rintro ⟨-, -, h⟩
        exact h
      · rintro rfl
        exact ⟨rfl, rfl, rfl⟩

/-- Witness for C8: with a constant hash function (so that the distinct
contents [1] and [2] collide), equality holds on equal contents and fails
on a hash collision with different contents. -/
theorem slice_equality_witness :
    EqualOnSliceWithHash (SliceWithHash.ofSlice (fun _ => 0) ⟨[1, 2]⟩)
        (SliceWithHash.ofSlice (fun _ => 0) ⟨[1, 2]⟩) = true ∧
    ¬ (EqualOnSliceWithHash (SliceWithHash.ofSlice (fun _ => 0) ⟨[1]⟩)
        (SliceWithHash.ofSlice (fun _ => 0) ⟨[2]⟩) = true) :=
  ⟨(slice_equality_iff_content (fun _ => 0) (fun _ _ => 0) 0 ⟨[1, 2]⟩ ⟨[1, 2]⟩).1.mpr rfl,
   fun h =>
     by cases (slice_equality_iff_content (fun _ => 0) (fun _ _ => 0) 0 ⟨[1]⟩ ⟨[2]⟩).1.mp h⟩

end StarRocks
